import Mathlib

/-!
Verification of the process-scheduling core of `run_analysis.py` (MPAS-Analysis).

The script runs a batch of named analysis tasks either in parallel
(`run_parallel_tasks`, `launch_tasks`, `wait_for_task`, `is_running`) or
sequentially in-process (`run_analysis`).  The definitions below are a shallow
embedding of those functions: the scheduler's mutable dictionaries become
explicit state, the nondeterministic order in which child processes terminate
becomes an explicit list of choices (indices into the active set), and the
observable side effects (log writes, console messages, process spawns, config
snapshots, the final `sys.exit` code) become data computed by the model.
-/

namespace RunAnalysis

/-- A task as the parallel scheduler observes it: its `taskName` together with
the exit status its child process will report on completion
(`process.returncode` after `wait_for_task`). -/
structure PTask where
  name : String
  returncode : Int
deriving Repr, DecidableEq

/-- State of the scheduling loop of `run_parallel_tasks` (lines 83-109):
`active` models the `processes` dictionary (tasks currently launched and not
yet reaped), `remainingTasks` models `remainingTasks`, `tasksWithErrors`
models `tasksWithErrors`.  `launched` and `completed` are history fields
recording every launch and every completion in order. -/
structure SchedState where
  active : List PTask
  remainingTasks : List PTask
  launched : List String
  completed : List PTask
  tasksWithErrors : List String
deriving Repr, DecidableEq

/-- Lines 83-90 of `run_parallel_tasks`: clamp `taskCount` to the number of
tasks, launch the first `taskCount` tasks, keep the rest as the backlog. -/
def initSched (tasks : List PTask) (taskCount : Nat) : SchedState :=
  let tc := min taskCount tasks.length
  { active := tasks.take tc
    remainingTasks := tasks.drop tc
    launched := (tasks.take tc).map PTask.name
    completed := []
    tasksWithErrors := [] }

/-- One iteration of the `while len(processes) > 0` loop (lines 91-109).
`i` chooses which member of the active set `wait_for_task` reports as
finished (the OS decides this; the model quantifies over it).  The finished
task is classified by its returncode, removed from the active set, and, when
the backlog is non-empty, its head is launched into the freed slot. -/
def schedStep (s : SchedState) (i : Nat) : Option SchedState :=
  match s.active[i]? with
  | none => none
  | some t =>
    let tasksWithErrors :=
      if t.returncode = 0 then s.tasksWithErrors else s.tasksWithErrors ++ [t.name]
    let active := s.active.eraseIdx i
    match s.remainingTasks with
    | [] =>
        some { active := active, remainingTasks := []
               launched := s.launched, completed := s.completed ++ [t]
               tasksWithErrors := tasksWithErrors }
    | u :: rest =>
        some { active := active ++ [u], remainingTasks := rest
               launched := s.launched ++ [u.name]
               completed := s.completed ++ [t]
               tasksWithErrors := tasksWithErrors }

/-- Iterate `schedStep` over a list of completion choices. -/
def runSteps (s : SchedState) : List Nat → Option SchedState
  | [] => some s
  | i :: rest => (schedStep s i).bind fun s2 => runSteps s2 rest

/-- A complete run of the scheduling loop of `run_parallel_tasks`: the loop
exits exactly when the active set (`processes`) is empty, so a choice
sequence describes a full run precisely when it drives `active` to `[]`. -/
def runSched (tasks : List PTask) (taskCount : Nat) (choices : List Nat) :
    Option SchedState :=
  match runSteps (initSched tasks taskCount) choices with
  | some s => if s.active.isEmpty then some s else none
  | none => none

/-- Lines 111-119 of `run_parallel_tasks`: from the accumulated
`tasksWithErrors`, the process exit code (0 when the function falls through
and the program later exits normally, 1 via `sys.exit(1)` otherwise) and the
summary messages printed. -/
def run_parallel_tasks_exit (tasksWithErrors : List String) : Nat × List String :=
  match tasksWithErrors with
  | [] => (0, [])
  | [t] => (1, ["There were errors in task " ++ t])
  | ts => (1, ["There were errors in " ++ toString ts.length ++ " tasks: " ++
               String.intercalate ", " ts])

/-- Observable side effects of `launch_tasks` (lines 142-168), in the order
the code performs them.  `openLog path true` models `open(path, 'w')`
(create-or-truncate). -/
inductive LaunchEvent where
  | openLog (path : String) (truncate : Bool)
  | writeLog (text : String)
  | flushLog
  | printMsg (text : String)
  | spawn (args : List String)
deriving Repr, DecidableEq

/-- The configuration values `launch_tasks` reads: the config option
`commandPrefix` (modelled by the field `commandPrefixStr`, defaulting to the
empty string), `os.path.realpath(__file__)`, and the logs directory. -/
structure LaunchConfig where
  commandPrefixStr : String
  thisFile : String
  logsDirectory : String
deriving Repr, DecidableEq

/-- Helper for `pySplitSpace`: split a character list at each space,
keeping empty pieces.  Total structural recursion (the recursive call never
returns `[]`, so the middle arm is unreachable but keeps the match
total). -/
def splitSpaceChars : List Char → List (List Char)
  | [] => [[]]
  | c :: cs =>
    match splitSpaceChars cs with
    | [] => [[c]]
    | g :: gs => if c = ' ' then [] :: g :: gs else (c :: g) :: gs

/-- Python `str.split(' ')`: split on each single space character, keeping
empty pieces — the empty string yields `[""]`, consecutive spaces yield
empty pieces, and leading or trailing spaces yield empty edge pieces. -/
def pySplitSpace (s : String) : List String :=
  (splitSpaceChars s.toList).map fun cs => String.mk cs

/-- Lines 144-155: the argument vector of a child process.  The command
prefix is the empty list when the configured string is empty and otherwise
the string split on the space character (Python
`commandPrefix.split(' ')`). -/
def buildArgs (cfg : LaunchConfig) (taskName : String) (configFiles : List String) :
    List String :=
  let pieces := if cfg.commandPrefixStr = "" then []
                else pySplitSpace cfg.commandPrefixStr
  pieces ++ [cfg.thisFile, "--subtask", "--generate", taskName] ++ configFiles

/-- Line 157: `'{}/{}.log'.format(logsDirectory, taskName)`. -/
def logFileName (logsDirectory taskName : String) : String :=
  logsDirectory ++ "/" ++ taskName ++ ".log"

/-- The per-task body of the loop in `launch_tasks` (lines 153-168) as its
sequence of side effects: open the log truncating, write the command line,
flush, print the start notice, spawn the child. -/
def launchTaskEvents (cfg : LaunchConfig) (taskName : String)
    (configFiles : List String) : List LaunchEvent :=
  let args := buildArgs cfg taskName configFiles
  [LaunchEvent.openLog (logFileName cfg.logsDirectory taskName) true,
   LaunchEvent.writeLog ("Command: " ++ String.intercalate " " args ++ "\n"),
   LaunchEvent.flushLog,
   LaunchEvent.printMsg ("Running " ++ taskName),
   LaunchEvent.spawn args]

/-- `launch_tasks` over a list of task names: the concatenated event trace
plus the two returned dictionaries (task name to argument vector standing in
for the process handle, task name to log file path). -/
def launch_tasks (cfg : LaunchConfig) (taskNames : List String)
    (configFiles : List String) :
    List LaunchEvent × List (String × List String) × List (String × String) :=
  (taskNames.flatMap fun n => launchTaskEvents cfg n configFiles,
   taskNames.map fun n => (n, buildArgs cfg n configFiles),
   taskNames.map fun n => (n, logFileName cfg.logsDirectory n))

/-- A `subprocess.Popen` handle as `wait_for_task` / `is_running` see it:
its pid, whether `os.kill(pid, 0)` currently succeeds (`alive`), and its
`returncode` attribute (`none` until something sets it). -/
structure Proc where
  pid : Nat
  alive : Bool
  returncode : Option Int
deriving Repr, DecidableEq

/-- `is_running` (lines 211-235): `os.kill(process.pid, 0)` succeeds exactly
when the process still exists. -/
def is_running (p : Proc) : Bool := p.alive

/-- `wait_for_task` (lines 196-208).  `processes` models the dictionary in
some iteration order; `waitPid` and `waitStatus` are the pair returned by the
blocking `os.waitpid(-1, 0)` call, reached only when the first non-blocking
pass finds every tracked process still running.  When the reported pid
matches no tracked process the Python function falls off the end and returns
`None`. -/
def wait_for_task (processes : List (String × Proc)) (waitPid : Nat)
    (waitStatus : Int) : Option (String × Proc) :=
  match processes.find? (fun x => !(is_running x.2)) with
  | some x => some x
  | none =>
    match processes.find? (fun x => x.2.pid == waitPid) with
    | some x => some (x.1, { x.2 with returncode := some waitStatus })
    | none => none

/-- What a task's in-process `run()` call does on the sequential path:
return normally, raise an ordinary exception carrying a stacktrace, or raise
`KeyboardInterrupt`. -/
inductive Outcome where
  | success
  | failure (stacktrace : String)
  | interrupt
deriving Repr, DecidableEq

/-- Whether an outcome is an ordinary (caught and recorded) failure. -/
def Outcome.isFailure : Outcome → Bool
  | Outcome.failure _ => true
  | _ => false

/-- A task on the sequential path: its name and what its `run()` does. -/
structure SeqTask where
  name : String
  outcome : Outcome
deriving Repr, DecidableEq

/-- Accumulated state of `run_analysis` (lines 333-359): the recorded
failures, the most recent stacktrace, and the config snapshot files written,
in write order. -/
structure SeqAcc where
  tasksWithErrors : List String
  lastStacktrace : Option String
  snapshots : List String
deriving Repr, DecidableEq

/-- Initial accumulator of `run_analysis`. -/
def seqInit : SeqAcc :=
  { tasksWithErrors := [], lastStacktrace := none, snapshots := [] }

/-- Line 355: `'{}/configs/config.{}'.format(logsDirectory, taskName)`. -/
def configPath (logsDirectory taskName : String) : String :=
  logsDirectory ++ "/configs/config." ++ taskName

/-- The `for analysisTask in analyses` loop of `run_analysis`
(lines 335-359).  A `KeyboardInterrupt` is re-raised at once (lines 347-348),
modelled by `Except.error` carrying the state accumulated so far: nothing is
recorded for that task, its config snapshot is not written, and no later task
runs.  Any other exception is caught: the task name and stacktrace are
recorded and the loop continues.  In both the success and the caught-failure
case the config snapshot is written (lines 355-359) before the next task. -/
def runAnalysisLoop (logsDirectory : String) (acc : SeqAcc) :
    List SeqTask → Except SeqAcc SeqAcc
  | [] => Except.ok acc
  | t :: rest =>
    match t.outcome with
    | Outcome.interrupt => Except.error acc
    | Outcome.success =>
        runAnalysisLoop logsDirectory
          { acc with snapshots := acc.snapshots ++ [configPath logsDirectory t.name] }
          rest
    | Outcome.failure tr =>
        runAnalysisLoop logsDirectory
          { tasksWithErrors := acc.tasksWithErrors ++ [t.name]
            lastStacktrace := some tr
            snapshots := acc.snapshots ++ [configPath logsDirectory t.name] }
          rest

/-- Lines 365-378 of `run_analysis`: exit code and summary messages.  The
single-failure message is printed only when the batch holds more than one
task (`if len(analyses) > 1`); with exactly one task the function exits with
code 1 silently.  The multi-failure message is printed unconditionally. -/
def run_analysis_exit (numAnalyses : Nat) (tasksWithErrors : List String)
    (lastStacktrace : Option String) : Nat × List String :=
  match tasksWithErrors with
  | [] => (0, [])
  | [t] =>
      if 1 < numAnalyses then
        (1, ["There were errors in task " ++ t, "The stacktrace was:",
             lastStacktrace.getD ""])
      else (1, [])
  | ts =>
      (1, ["There were errors in " ++ toString ts.length ++ " tasks: " ++
             String.intercalate ", " ts,
           "The last stacktrace was:", lastStacktrace.getD ""])

/-- A small concrete batch used to exercise the model: task `b` fails. -/
def demoTasks : List PTask := [⟨"a", 0⟩, ⟨"b", 1⟩, ⟨"c", 0⟩]

/-- Final state of running `demoTasks` with concurrency 2 and completion
choices `[0, 0, 0]`. -/
def demoFinal : SchedState :=
  { active := [], remainingTasks := []
    launched := ["a", "b", "c"]
    completed := [⟨"a", 0⟩, ⟨"b", 1⟩, ⟨"c", 0⟩]
    tasksWithErrors := ["b"] }

/-- A small concrete sequential batch: `s1` succeeds, `f1` fails. -/
def seqDemo : List SeqTask :=
  [⟨"s1", Outcome.success⟩, ⟨"f1", Outcome.failure "tb1"⟩]

/-- A concrete launch configuration for witnesses and counterexamples. -/
def demoCfg : LaunchConfig :=
  { commandPrefixStr := "", thisFile := "run_analysis.py", logsDirectory := "logs" }

/-- A concrete launch configuration with a non-empty command prefix. -/
def demoCfg2 : LaunchConfig :=
  { commandPrefixStr := "srun -n 1", thisFile := "run_analysis.py"
    logsDirectory := "logs" }

/-- Final accumulator of the sequential run of `seqDemo`. -/
def seqDemoFinal : SeqAcc :=
  { tasksWithErrors := ["f1"], lastStacktrace := some "tb1"
    snapshots := ["logs/configs/config.s1", "logs/configs/config.f1"] }

/-- A concrete parallel batch with two failing tasks (`a` and `c`). -/
def demo2Tasks : List PTask := [⟨"a", 1⟩, ⟨"b", 0⟩, ⟨"c", 2⟩]

/-- Final state of running `demo2Tasks` with concurrency 2 and completion
choices `[0, 0, 0]`. -/
def demo2Final : SchedState :=
  { active := [], remainingTasks := []
    launched := ["a", "b", "c"]
    completed := [⟨"a", 1⟩, ⟨"b", 0⟩, ⟨"c", 2⟩]
    tasksWithErrors := ["a", "c"] }

/-- A concrete sequential batch with two failing tasks. -/
def seqDemo2 : List SeqTask :=
  [⟨"f1", Outcome.failure "t1"⟩, ⟨"s1", Outcome.success⟩,
   ⟨"f2", Outcome.failure "t2"⟩]

/-- Final accumulator of the sequential run of `seqDemo2`. -/
def seqDemo2Final : SeqAcc :=
  { tasksWithErrors := ["f1", "f2"], lastStacktrace := some "t2"
    snapshots := ["logs/configs/config.f1", "logs/configs/config.s1",
                  "logs/configs/config.f2"] }

/-- Characterization of a successful scheduler step: some task `t` at index
`i` of the active set finished; it is recorded as completed, classified by
its returncode, removed from the active set, and the head of the backlog (if
any) is launched into the freed slot. -/
theorem schedStep_cases {s s' : SchedState} {i : Nat} (h : schedStep s i = some s') :
    ∃ t, s.active[i]? = some t ∧
      s'.completed = s.completed ++ [t] ∧
      s'.tasksWithErrors = (if t.returncode = 0 then s.tasksWithErrors
                            else s.tasksWithErrors ++ [t.name]) ∧
      ((s.remainingTasks = [] ∧ s'.active = s.active.eraseIdx i ∧
        s'.remainingTasks = [] ∧ s'.launched = s.launched) ∨
       (∃ u rest, s.remainingTasks = u :: rest ∧
        s'.active = s.active.eraseIdx i ++ [u] ∧ s'.remainingTasks = rest ∧
        s'.launched = s.launched ++ [u.name])) := by
  unfold schedStep at h
  cases hg : s.active[i]? with
  | none => rw [hg] at h; exact absurd h (by simp)
  | some t =>
    rw [hg] at h
    refine ⟨t, rfl, ?_⟩
    cases hr : s.remainingTasks with
    | nil =>
        rw [hr] at h
        injection h with h
        subst h
        exact ⟨rfl, rfl, Or.inl ⟨rfl, rfl, rfl, rfl⟩⟩
    | cons u rest =>
        rw [hr] at h
        injection h with h
        subst h
        exact ⟨rfl, rfl, Or.inr ⟨u, rest, rfl, rfl, rfl, rfl⟩⟩

/-- Any property preserved by single steps is preserved by iterated steps. -/
theorem runSteps_inv (P : SchedState → Prop)
    (hstep : ∀ s i s', schedStep s i = some s' → P s → P s') :
    ∀ (cs : List Nat) (s s' : SchedState), runSteps s cs = some s' → P s → P s' := by
  intro cs
  induction cs with
  | nil =>
      intro s s' h hp
      simp only [runSteps] at h
      injection h with h
      rwa [← h]
  | cons i rest ih =>
      intro s s' h hp
      simp only [runSteps, Option.bind_eq_some] at h
      obtain ⟨s2, h2, h3⟩ := h
      exact ih s2 s' h3 (hstep s i s2 h2 hp)

/-- A list is a permutation of any one of its elements consed onto the list
with that position erased. -/
theorem perm_cons_eraseIdx {α : Type} {l : List α} {i : Nat} {t : α}
    (h : l[i]? = some t) : l.Perm (t :: l.eraseIdx i) := by
  obtain ⟨hi, ht⟩ := List.getElem?_eq_some_iff.mp h
  subst ht
  rw [List.eraseIdx_eq_take_drop_succ]
  conv_lhs => rw [← List.take_append_drop i l, List.drop_eq_getElem_cons hi]
  exact List.perm_middle

/-- A scheduler step never grows the active set. -/
theorem schedStep_active_le {s s' : SchedState} {i : Nat}
    (h : schedStep s i = some s') : s'.active.length ≤ s.active.length := by
  obtain ⟨t, hg, _, _, hcase⟩ := schedStep_cases h
  have hi : i < s.active.length := (List.getElem?_eq_some_iff.mp hg).1
  have hlen : (s.active.eraseIdx i).length = s.active.length - 1 :=
    List.length_eraseIdx_of_lt hi
  rcases hcase with ⟨_, ha, _, _⟩ | ⟨u, rest, _, ha, _, _⟩
  · rw [ha, hlen]; omega
  · rw [ha, List.length_append, hlen]; simp; omega

/-- A scheduler step preserves the concatenation of the launch history and
the names still in the backlog: tasks are launched from the backlog head, in
order. -/
theorem schedStep_launched {s s' : SchedState} {i : Nat}
    (h : schedStep s i = some s') :
    s'.launched ++ s'.remainingTasks.map PTask.name
      = s.launched ++ s.remainingTasks.map PTask.name := by
  obtain ⟨t, _, _, _, hcase⟩ := schedStep_cases h
  rcases hcase with ⟨hr, _, hr', hl⟩ | ⟨u, rest, hr, _, hr', hl⟩
  · rw [hr, hr', hl]
  · rw [hr, hr', hl]; simp

/-- A scheduler step permutes tasks between the completed, active and
backlog segments but never invents or loses one. -/
theorem schedStep_perm {s s' : SchedState} {i : Nat}
    (h : schedStep s i = some s') :
    (s'.completed ++ s'.active ++ s'.remainingTasks).Perm
      (s.completed ++ s.active ++ s.remainingTasks) := by
  obtain ⟨t, hg, hcomp, _, hcase⟩ := schedStep_cases h
  have hperm := perm_cons_eraseIdx hg
  rcases hcase with ⟨hr, ha, hr', _⟩ | ⟨u, rest, hr, ha, hr', _⟩
  · rw [hcomp, ha, hr, hr']
    have e1 : (s.completed ++ [t]) ++ s.active.eraseIdx i ++ ([] : List PTask)
        = s.completed ++ (t :: s.active.eraseIdx i) := by simp
    rw [e1]
    simpa using (hperm.symm.append_left s.completed)
  · rw [hcomp, ha, hr, hr']
    have e1 : (s.completed ++ [t]) ++ (s.active.eraseIdx i ++ [u]) ++ rest
        = (s.completed ++ (t :: s.active.eraseIdx i)) ++ (u :: rest) := by simp
    rw [e1]
    exact (hperm.symm.append_left s.completed).append_right (u :: rest)

/-- A scheduler step preserves the fact that `tasksWithErrors` is exactly
the names of the completed tasks with non-zero returncode, in completion
order. -/
theorem schedStep_errors {s s' : SchedState} {i : Nat}
    (h : schedStep s i = some s')
    (hs : s.tasksWithErrors
        = (s.completed.filter fun t => t.returncode != 0).map PTask.name) :
    s'.tasksWithErrors
      = (s'.completed.filter fun t => t.returncode != 0).map PTask.name := by
  obtain ⟨t, _, hcomp, herr, _⟩ := schedStep_cases h
  rw [herr, hcomp, List.filter_append, List.map_append, ← hs]
  by_cases h0 : t.returncode = 0
  · simp [h0]
  · simp [h0]

/-- A scheduler step preserves the invariant that a non-empty backlog forces
a non-empty active set (a replacement is always launched into a freed
slot). -/
theorem schedStep_nonempty {s s' : SchedState} {i : Nat}
    (h : schedStep s i = some s')
    (_hs : s.remainingTasks ≠ [] → s.active ≠ []) :
    s'.remainingTasks ≠ [] → s'.active ≠ [] := by
  obtain ⟨t, _, _, _, hcase⟩ := schedStep_cases h
  rcases hcase with ⟨_, _, hr', _⟩ | ⟨u, rest, _, ha, hr', _⟩
  · rw [hr']; intro hne; exact absurd rfl hne
  · rw [ha]; intro _; simp

/-- A complete run is an iterated-step run ending with an empty active set. -/
theorem runSched_eq {tasks : List PTask} {taskCount : Nat} {cs : List Nat}
    {s : SchedState} (h : runSched tasks taskCount cs = some s) :
    runSteps (initSched tasks taskCount) cs = some s ∧ s.active = [] := by
  unfold runSched at h
  cases hr : runSteps (initSched tasks taskCount) cs with
  | none => rw [hr] at h; cases h
  | some s2 =>
      rw [hr] at h
      dsimp only at h
      by_cases he : s2.active.isEmpty
      · rw [if_pos he] at h
        injection h with h
        subst h
        exact ⟨rfl, List.isEmpty_iff.mp he⟩
      · rw [if_neg he] at h; cases h

/-- Reachable states of the scheduling loop never track more than
`min taskCount tasks.length` processes at once. -/
theorem runSteps_active_le (tasks : List PTask) (taskCount : Nat) :
    ∀ (cs : List Nat) (s : SchedState),
      runSteps (initSched tasks taskCount) cs = some s →
      s.active.length ≤ min taskCount tasks.length := by
  intro cs s h
  have hinit : (initSched tasks taskCount).active.length ≤ min taskCount tasks.length := by
    simp only [initSched, List.length_take]
    omega
  exact runSteps_inv (fun st => st.active.length ≤ min taskCount tasks.length)
    (fun s i s' hst hp => le_trans (schedStep_active_le hst) hp) cs _ s h hinit

/-- With a positive concurrency limit, the initial state satisfies: a
non-empty backlog forces a non-empty active set. -/
theorem initSched_nonempty {tasks : List PTask} {taskCount : Nat}
    (hN : 1 ≤ taskCount) :
    (initSched tasks taskCount).remainingTasks ≠ [] →
      (initSched tasks taskCount).active ≠ [] := by
  intro hr
  rw [← List.length_pos]
  have h1 : 0 < (initSched tasks taskCount).remainingTasks.length :=
    List.length_pos.mpr hr
  simp only [initSched, List.length_drop, List.length_take] at h1 ⊢
  omega

/-- At the end of a complete run the backlog is exhausted. -/
theorem runSched_remaining_nil {tasks : List PTask} {taskCount : Nat}
    {cs : List Nat} {s : SchedState} (hN : 1 ≤ taskCount)
    (h : runSched tasks taskCount cs = some s) : s.remainingTasks = [] := by
  obtain ⟨hsteps, hact⟩ := runSched_eq h
  have hinv := runSteps_inv (fun st => st.remainingTasks ≠ [] → st.active ≠ [])
    (fun s i s' hst hp => schedStep_nonempty hst hp) cs _ s hsteps
    (initSched_nonempty hN)
  by_contra hne
  exact (hinv hne) hact

/-- A complete run launches exactly the declared tasks, in declared order. -/
theorem runSched_launched {tasks : List PTask} {taskCount : Nat}
    {cs : List Nat} {s : SchedState} (hN : 1 ≤ taskCount)
    (h : runSched tasks taskCount cs = some s) :
    s.launched = tasks.map PTask.name := by
  obtain ⟨hsteps, _⟩ := runSched_eq h
  have hrem := runSched_remaining_nil hN h
  have hinit : (initSched tasks taskCount).launched ++
      (initSched tasks taskCount).remainingTasks.map PTask.name
      = tasks.map PTask.name := by
    simp only [initSched]
    rw [← List.map_append, List.take_append_drop]
  have hinv := runSteps_inv
    (fun st => st.launched ++ st.remainingTasks.map PTask.name = tasks.map PTask.name)
    (fun s i s' hst hp => by
      dsimp only at hp ⊢
      rw [schedStep_launched hst]; exact hp) cs _ s hsteps hinit
  dsimp only at hinv
  rw [hrem] at hinv
  simpa using hinv

/-- A complete run completes each declared task exactly once (the completion
history is a permutation of the batch). -/
theorem runSched_perm {tasks : List PTask} {taskCount : Nat}
    {cs : List Nat} {s : SchedState} (hN : 1 ≤ taskCount)
    (h : runSched tasks taskCount cs = some s) : s.completed.Perm tasks := by
  obtain ⟨hsteps, hact⟩ := runSched_eq h
  have hrem := runSched_remaining_nil hN h
  have hinit : ((initSched tasks taskCount).completed ++
      (initSched tasks taskCount).active ++
      (initSched tasks taskCount).remainingTasks).Perm tasks := by
    simp only [initSched, List.nil_append]
    rw [List.take_append_drop]
  have hinv := runSteps_inv
    (fun st => (st.completed ++ st.active ++ st.remainingTasks).Perm tasks)
    (fun s i s' hst hp => (schedStep_perm hst).trans hp) cs _ s hsteps hinit
  dsimp only at hinv
  rw [hact, hrem] at hinv
  simpa using hinv

/-- In any reachable final state, the recorded failures are exactly the
names of the completed tasks with non-zero returncode, in completion
order. -/
theorem runSched_errors {tasks : List PTask} {taskCount : Nat}
    {cs : List Nat} {s : SchedState}
    (h : runSched tasks taskCount cs = some s) :
    s.tasksWithErrors
      = (s.completed.filter fun t => t.returncode != 0).map PTask.name := by
  obtain ⟨hsteps, _⟩ := runSched_eq h
  exact runSteps_inv _ (fun s i s' hst hp => schedStep_errors hst hp) cs _ s hsteps rfl

/-- The recorded failures of a complete run are a permutation of the names
of the failing tasks of the batch: no failure is lost or duplicated. -/
theorem runSched_errors_perm {tasks : List PTask} {taskCount : Nat}
    {cs : List Nat} {s : SchedState} (hN : 1 ≤ taskCount)
    (h : runSched tasks taskCount cs = some s) :
    s.tasksWithErrors.Perm
      ((tasks.filter fun t => t.returncode != 0).map PTask.name) := by
  rw [runSched_errors h]
  exact ((runSched_perm hN h).filter _).map _

/-- Nothing is printed and the program exits 0 exactly when no failure was
recorded on the parallel path; otherwise `sys.exit(1)`. -/
theorem run_parallel_exit_ne_nil {ts : List String} (h : ts ≠ []) :
    (run_parallel_tasks_exit ts).1 = 1 := by
  match ts with
  | [] => exact absurd rfl h
  | [t] => rfl
  | a :: b :: r => rfl

/-- With more than one recorded failure the parallel path prints the
comma-joined multi-failure summary. -/
theorem run_parallel_exit_many {ts : List String} (h : 1 < ts.length) :
    run_parallel_tasks_exit ts =
      (1, ["There were errors in " ++ toString ts.length ++ " tasks: " ++
           String.intercalate ", " ts]) := by
  match ts with
  | [] => simp at h
  | [t] => simp at h
  | a :: b :: r => rfl

/-- Any recorded failure makes the sequential path exit 1. -/
theorem run_analysis_exit_ne_nil {ts : List String} (n : Nat) (st : Option String)
    (h : ts ≠ []) : (run_analysis_exit n ts st).1 = 1 := by
  match ts with
  | [] => exact absurd rfl h
  | [t] =>
      by_cases hn : 1 < n <;> simp [run_analysis_exit, hn]
  | a :: b :: r => rfl

/-- With more than one recorded failure the sequential path prints the
comma-joined multi-failure summary and the last stacktrace. -/
theorem run_analysis_exit_many {ts : List String} (n : Nat) (st : Option String)
    (h : 1 < ts.length) :
    run_analysis_exit n ts st =
      (1, ["There were errors in " ++ toString ts.length ++ " tasks: " ++
             String.intercalate ", " ts,
           "The last stacktrace was:", st.getD ""]) := by
  match ts with
  | [] => simp at h
  | [t] => simp at h
  | a :: b :: r => rfl

/-- A completed sequential run records exactly the failing tasks' names in
task order and writes one config snapshot per task, in task order, success
and failure alike. -/
theorem runAnalysisLoop_ok (logsDirectory : String) :
    ∀ (tasks : List SeqTask) (acc r : SeqAcc),
      runAnalysisLoop logsDirectory acc tasks = Except.ok r →
      r.tasksWithErrors = acc.tasksWithErrors ++
          (tasks.filter fun t => t.outcome.isFailure).map SeqTask.name ∧
      r.snapshots = acc.snapshots ++
          tasks.map fun t => configPath logsDirectory t.name := by
  intro tasks
  induction tasks with
  | nil =>
      intro acc r h
      simp only [runAnalysisLoop] at h
      injection h with h
      subst h
      simp
  | cons t rest ih =>
      intro acc r h
      cases ho : t.outcome with
      | interrupt =>
          simp only [runAnalysisLoop, ho] at h
          cases h
      | success =>
          simp only [runAnalysisLoop, ho] at h
          obtain ⟨h1, h2⟩ := ih _ r h
          constructor
          · rw [h1]
            simp [List.filter_cons, ho, Outcome.isFailure]
          · rw [h2]
            simp
      | failure tr =>
          simp only [runAnalysisLoop, ho] at h
          obtain ⟨h1, h2⟩ := ih _ r h
          constructor
          · rw [h1]
            simp [List.filter_cons, ho, Outcome.isFailure]
          · rw [h2]
            simp

/-- Running the sequential loop up to the first interrupting task: the run
aborts there with exactly the failures and snapshots of the earlier tasks;
nothing is recorded for the interrupting task and nothing after it runs. -/
theorem runAnalysisLoop_interrupt (logsDirectory : String) {t : SeqTask}
    (ht : t.outcome = Outcome.interrupt) :
    ∀ (pre : List SeqTask) (post : List SeqTask) (acc : SeqAcc),
      (∀ u ∈ pre, u.outcome ≠ Outcome.interrupt) →
      ∃ accF : SeqAcc,
        runAnalysisLoop logsDirectory acc (pre ++ t :: post) = Except.error accF ∧
        accF.tasksWithErrors = acc.tasksWithErrors ++
          (pre.filter fun u => u.outcome.isFailure).map SeqTask.name ∧
        accF.snapshots = acc.snapshots ++
          pre.map fun u => configPath logsDirectory u.name := by
  intro pre
  induction pre with
  | nil =>
      intro post acc _
      refine ⟨acc, ?_, by simp, by simp⟩
      simp only [List.nil_append, runAnalysisLoop, ht]
  | cons u rest ih =>
      intro post acc hpre
      have hu : u.outcome ≠ Outcome.interrupt := hpre u (List.mem_cons_self u rest)
      have hrest : ∀ v ∈ rest, v.outcome ≠ Outcome.interrupt :=
        fun v hv => hpre v (List.mem_cons_of_mem u hv)
      cases ho : u.outcome with
      | interrupt => exact absurd ho hu
      | success =>
          obtain ⟨accF, h1, h2, h3⟩ := ih post _ hrest
          refine ⟨accF, ?_, ?_, ?_⟩
          · rw [List.cons_append]
            simp only [runAnalysisLoop, ho]
            exact h1
          · rw [h2]
            simp [List.filter_cons, ho, Outcome.isFailure]
          · rw [h3]
            simp
      | failure tr =>
          obtain ⟨accF, h1, h2, h3⟩ := ih post _ hrest
          refine ⟨accF, ?_, ?_, ?_⟩
          · rw [List.cons_append]
            simp only [runAnalysisLoop, ho]
            exact h1
          · rw [h2]
            simp [List.filter_cons, ho, Outcome.isFailure]
          · rw [h3]
            simp

/-- C1: for every batch of tasks, run on either the parallel path
(`run_parallel_tasks`) or the sequential path (`run_analysis`): if every
task finishes with success the program terminates with process exit code 0,
and if one or more tasks fail the program terminates with process exit
code 1. -/
theorem C1_exit_codes :
    (∀ (tasks : List PTask) (taskCount : Nat) (choices : List Nat) (s : SchedState),
        1 ≤ taskCount →
        runSched tasks taskCount choices = some s →
        (((∀ t ∈ tasks, t.returncode = 0) →
            (run_parallel_tasks_exit s.tasksWithErrors).1 = 0) ∧
         ((∃ t ∈ tasks, t.returncode ≠ 0) →
            (run_parallel_tasks_exit s.tasksWithErrors).1 = 1))) ∧
    (∀ (logsDirectory : String) (tasks : List SeqTask) (r : SeqAcc),
        runAnalysisLoop logsDirectory seqInit tasks = Except.ok r →
        (((∀ t ∈ tasks, t.outcome.isFailure = false) →
            (run_analysis_exit tasks.length r.tasksWithErrors r.lastStacktrace).1 = 0) ∧
         ((∃ t ∈ tasks, t.outcome.isFailure = true) →
            (run_analysis_exit tasks.length r.tasksWithErrors r.lastStacktrace).1 = 1))) := by
  constructor
  · intro tasks taskCount choices s hN h
    have hperm := runSched_errors_perm hN h
    constructor
    · intro hall
      have hfil : tasks.filter (fun t => t.returncode != 0) = [] := by
        rw [List.filter_eq_nil_iff]
        intro t ht
        simp [hall t ht]
      rw [hfil] at hperm
      simp only [List.map_nil] at hperm
      rw [hperm.eq_nil]
      rfl
    · intro hex
      obtain ⟨t, ht, hrc⟩ := hex
      have hmem : t ∈ tasks.filter (fun t => t.returncode != 0) :=
        List.mem_filter.mpr ⟨ht, by simpa using hrc⟩
      have hne : (tasks.filter (fun t => t.returncode != 0)).map PTask.name ≠ [] :=
        List.ne_nil_of_mem (List.mem_map_of_mem PTask.name hmem)
      apply run_parallel_exit_ne_nil
      intro he
      rw [he] at hperm
      exact hne hperm.symm.eq_nil
  · intro logsDirectory tasks r h
    have herr := (runAnalysisLoop_ok logsDirectory tasks seqInit r h).1
    simp only [seqInit, List.nil_append] at herr
    constructor
    · intro hall
      have hfil : tasks.filter (fun t => t.outcome.isFailure) = [] := by
        rw [List.filter_eq_nil_iff]
        intro t ht
        simp [hall t ht]
      rw [hfil] at herr
      simp only [List.map_nil] at herr
      rw [herr]
      rfl
    · intro hex
      obtain ⟨t, ht, hfail⟩ := hex
      have hmem : t ∈ tasks.filter (fun t => t.outcome.isFailure) :=
        List.mem_filter.mpr ⟨ht, hfail⟩
      apply run_analysis_exit_ne_nil
      rw [herr]
      exact List.ne_nil_of_mem (List.mem_map_of_mem SeqTask.name hmem)

/-- Witness for C1: a parallel run where task `b` fails exits 1; a
sequential run where task `f1` fails exits 1. -/
theorem C1_witness :
    (run_parallel_tasks_exit demoFinal.tasksWithErrors).1 = 1 ∧
    (run_analysis_exit 2 seqDemoFinal.tasksWithErrors seqDemoFinal.lastStacktrace).1
      = 1 := by
  constructor
  · exact (C1_exit_codes.1 demoTasks 2 [0, 0, 0] demoFinal (by decide) (by decide)).2
      ⟨⟨"b", 1⟩, by decide, by decide⟩
  · have h := (C1_exit_codes.2 "logs" seqDemo seqDemoFinal rfl).2
      ⟨⟨"f1", Outcome.failure "tb1"⟩, by decide, rfl⟩
    simpa [seqDemo] using h

/-- C2: for every concurrency limit N ≥ 1 and every task list of length
M ≥ 1, the scheduling loop of `run_parallel_tasks` launches each of the M
tasks exactly once, in declared order (the launch history of any complete
run equals the declared name list), and the tracked active set never holds
more than min(N, M) processes in any reachable state of the loop. -/
theorem C2_scheduler_invariants (tasks : List PTask) (taskCount : Nat)
    (hN : 1 ≤ taskCount) (_hM : 1 ≤ tasks.length) :
    (∀ (cs : List Nat) (s : SchedState),
        runSteps (initSched tasks taskCount) cs = some s →
        s.active.length ≤ min taskCount tasks.length) ∧
    (∀ (cs : List Nat) (s : SchedState),
        runSched tasks taskCount cs = some s →
        s.launched = tasks.map PTask.name) :=
  ⟨fun cs s h => runSteps_active_le tasks taskCount cs s h,
   fun _ _ h => runSched_launched hN h⟩

/-- Witness for C2: the concrete run of `demoTasks` with N = 2 obeys the
bound and launches `a`, `b`, `c` in declared order. -/
theorem C2_witness :
    demoFinal.active.length ≤ min 2 demoTasks.length ∧
    demoFinal.launched = demoTasks.map PTask.name := by
  have h := C2_scheduler_invariants demoTasks 2 (by decide) (by decide)
  exact ⟨h.1 [0, 0, 0] demoFinal (by decide), h.2 [0, 0, 0] demoFinal (by decide)⟩

/-- C3: for every batch with k > 1 failing tasks, on both the parallel and
the sequential path, the end-of-run summary names exactly those k failing
task names, each exactly once, joined by ", ", in completion order: the
recorded failure list is the completion-order failing names, it is a
permutation of the batch's failing names (none dropped or duplicated), and
the printed summary comma-joins it. -/
theorem C3_failure_summary :
    (∀ (tasks : List PTask) (taskCount : Nat) (cs : List Nat) (s : SchedState),
        1 ≤ taskCount →
        runSched tasks taskCount cs = some s →
        s.tasksWithErrors
            = (s.completed.filter fun t => t.returncode != 0).map PTask.name ∧
        s.completed.Perm tasks ∧
        s.tasksWithErrors.Perm
            ((tasks.filter fun t => t.returncode != 0).map PTask.name) ∧
        (1 < s.tasksWithErrors.length →
          (run_parallel_tasks_exit s.tasksWithErrors).2
            = ["There were errors in " ++ toString s.tasksWithErrors.length ++
               " tasks: " ++ String.intercalate ", " s.tasksWithErrors])) ∧
    (∀ (logsDirectory : String) (tasks : List SeqTask) (r : SeqAcc),
        runAnalysisLoop logsDirectory seqInit tasks = Except.ok r →
        r.tasksWithErrors
            = (tasks.filter fun t => t.outcome.isFailure).map SeqTask.name ∧
        (1 < r.tasksWithErrors.length →
          (run_analysis_exit tasks.length r.tasksWithErrors r.lastStacktrace).2
            = ["There were errors in " ++ toString r.tasksWithErrors.length ++
                 " tasks: " ++ String.intercalate ", " r.tasksWithErrors,
               "The last stacktrace was:", r.lastStacktrace.getD ""])) := by
  constructor
  · intro tasks taskCount cs s hN h
    refine ⟨runSched_errors h, runSched_perm hN h, runSched_errors_perm hN h, ?_⟩
    intro hk
    rw [run_parallel_exit_many hk]
  · intro logsDirectory tasks r h
    have herr := (runAnalysisLoop_ok logsDirectory tasks seqInit r h).1
    simp only [seqInit, List.nil_append] at herr
    refine ⟨herr, ?_⟩
    intro hk
    rw [run_analysis_exit_many tasks.length r.lastStacktrace hk]

/-- Witness for C3: the parallel run of `demo2Tasks` (failures `a` and `c`)
and the sequential run of `seqDemo2` (failures `f1` and `f2`) both summarize
exactly their failing tasks, comma-joined. -/
theorem C3_witness :
    demo2Final.tasksWithErrors.Perm
      ((demo2Tasks.filter fun t => t.returncode != 0).map PTask.name) ∧
    (run_parallel_tasks_exit demo2Final.tasksWithErrors).2
      = ["There were errors in 2 tasks: a, c"] ∧
    (run_analysis_exit 3 seqDemo2Final.tasksWithErrors seqDemo2Final.lastStacktrace).2
      = ["There were errors in 2 tasks: f1, f2", "The last stacktrace was:", "t2"] := by
  have hp := C3_failure_summary.1 demo2Tasks 2 [0, 0, 0] demo2Final
    (by decide) (by decide)
  have hs := C3_failure_summary.2 "logs" seqDemo2 seqDemo2Final rfl
  refine ⟨hp.2.2.1, ?_, ?_⟩
  · rw [hp.2.2.2 (by decide)]
    rfl
  · have h2 := hs.2 (by decide)
    simp only [seqDemo2, List.length_cons, List.length_nil] at h2
    rw [h2]
    rfl

/-- C4 as stated is false: on the sequential path a batch consisting of
exactly one task whose task fails exits with code 1 but emits no failure
message naming it, because the single-failure message of `run_analysis` is
guarded by `len(analyses) > 1` (line 368).  Concrete input: the one-task
batch `[("a", failure "tb")]`. -/
theorem C4_counterexample :
    runAnalysisLoop "logs" seqInit [⟨"a", Outcome.failure "tb"⟩]
      = Except.ok { tasksWithErrors := ["a"], lastStacktrace := some "tb"
                    snapshots := ["logs/configs/config.a"] } ∧
    run_analysis_exit 1 ["a"] (some "tb") = (1, []) := ⟨rfl, rfl⟩

/-- C4 (amended): with exactly one recorded failing task, the parallel path
always emits the single-task failure message naming it; the sequential path
emits it (with the stacktrace) only when the batch contains more than one
task, and with a one-task batch exits with code 1 without emitting any
summary message. -/
theorem C4_single_failure :
    (∀ (tasks : List PTask) (taskCount : Nat) (cs : List Nat) (s : SchedState)
        (t : String),
        runSched tasks taskCount cs = some s →
        s.tasksWithErrors = [t] →
        run_parallel_tasks_exit s.tasksWithErrors
          = (1, ["There were errors in task " ++ t])) ∧
    (∀ (logsDirectory : String) (tasks : List SeqTask) (r : SeqAcc) (t : String),
        runAnalysisLoop logsDirectory seqInit tasks = Except.ok r →
        r.tasksWithErrors = [t] →
        ((1 < tasks.length →
            run_analysis_exit tasks.length r.tasksWithErrors r.lastStacktrace
              = (1, ["There were errors in task " ++ t, "The stacktrace was:",
                     r.lastStacktrace.getD ""])) ∧
         (tasks.length ≤ 1 →
            run_analysis_exit tasks.length r.tasksWithErrors r.lastStacktrace
              = (1, [])))) := by
  constructor
  · intro tasks taskCount cs s t _ he
    rw [he]
    rfl
  · intro logsDirectory tasks r t _ he
    constructor
    · intro hn
      rw [he]
      simp [run_analysis_exit, hn]
    · intro hn
      rw [he]
      simp [run_analysis_exit, Nat.not_lt.mpr hn]

/-- Witness for C4 (amended): concrete single-failure batches on both
paths. -/
theorem C4_witness :
    run_parallel_tasks_exit demoFinal.tasksWithErrors
      = (1, ["There were errors in task b"]) ∧
    (run_analysis_exit 2 seqDemoFinal.tasksWithErrors seqDemoFinal.lastStacktrace
        = (1, ["There were errors in task f1", "The stacktrace was:", "tb1"])) ∧
    run_analysis_exit 1 ["a"] (some "tb") = (1, []) := by
  refine ⟨?_, ?_, ?_⟩
  · exact C4_single_failure.1 demoTasks 2 [0, 0, 0] demoFinal "b" (by decide) rfl
  · have h := (C4_single_failure.2 "logs" seqDemo seqDemoFinal "f1" rfl rfl).1
    have h2 := h (by simp [seqDemo])
    simpa [seqDemo, seqDemoFinal] using h2
  · exact (C4_single_failure.2 "logs" [⟨"a", Outcome.failure "tb"⟩]
      { tasksWithErrors := ["a"], lastStacktrace := some "tb"
        snapshots := ["logs/configs/config.a"] } "a" rfl rfl).2 (by decide)

/-- C5: for a non-empty tracked set, `wait_for_task` first makes a
non-blocking pass and immediately returns a process that has already
terminated; only when every tracked process is still running does it fall
through to the blocking wait, and the pair it then returns carries the
returncode set to the status reported by that wait. -/
theorem C5_wait_first_pass :
    (∀ (processes : List (String × Proc)) (waitPid : Nat) (waitStatus : Int),
        (∃ x ∈ processes, is_running x.2 = false) →
        ∃ x ∈ processes, is_running x.2 = false ∧
          wait_for_task processes waitPid waitStatus = some x) ∧
    (∀ (processes : List (String × Proc)) (waitPid : Nat) (waitStatus : Int)
        (n : String) (p : Proc),
        (∀ x ∈ processes, is_running x.2 = true) →
        wait_for_task processes waitPid waitStatus = some (n, p) →
        p.returncode = some waitStatus ∧
        ∃ q : Proc, (n, q) ∈ processes ∧ q.pid = waitPid ∧
          p = { q with returncode := some waitStatus }) := by
  constructor
  · intro processes waitPid waitStatus hex
    have hsome : (processes.find? fun x => !(is_running x.2)).isSome := by
      rw [List.find?_isSome]
      obtain ⟨x, hx, hrun⟩ := hex
      exact ⟨x, hx, by simp [hrun]⟩
    obtain ⟨y, hy⟩ := Option.isSome_iff_exists.mp hsome
    refine ⟨y, List.mem_of_find?_eq_some hy, ?_, ?_⟩
    · have := List.find?_some hy
      simpa using this
    · unfold wait_for_task
      rw [hy]
  · intro processes waitPid waitStatus n p hall h
    have hnone : processes.find? (fun x => !(is_running x.2)) = none := by
      rw [List.find?_eq_none]
      intro x hx
      simp [hall x hx]
    unfold wait_for_task at h
    rw [hnone] at h
    cases hf : processes.find? (fun x => x.2.pid == waitPid) with
    | none => rw [hf] at h; cases h
    | some y =>
        rw [hf] at h
        injection h with h
        have h1 : y.1 = n := congrArg Prod.fst h
        have h2 : { y.2 with returncode := some waitStatus } = p := congrArg Prod.snd h
        have hpid : y.2.pid = waitPid := by
          have := List.find?_some hf
          simpa using this
        refine ⟨?_, y.2, ?_, hpid, h2.symm⟩
        · rw [← h2]
        · rw [← h1]
          exact List.mem_of_find?_eq_some hf

/-- Witness for C5: a tracked set with a dead process is returned by the
first pass; with all processes running, the blocking wait's status is
recorded on the matching process. -/
theorem C5_witness :
    (∃ x ∈ ([("a", ⟨1, false, none⟩), ("b", ⟨2, true, none⟩)] :
          List (String × Proc)),
        is_running x.2 = false ∧
        wait_for_task [("a", ⟨1, false, none⟩), ("b", ⟨2, true, none⟩)] 2 256
          = some x) ∧
    ((⟨2, true, some 256⟩ : Proc).returncode = some 256 ∧
      ∃ q : Proc,
        ("b", q) ∈ ([("a", ⟨1, true, none⟩), ("b", ⟨2, true, none⟩)] :
            List (String × Proc)) ∧
        q.pid = 2 ∧ (⟨2, true, some 256⟩ : Proc)
          = { q with returncode := some 256 }) := by
  constructor
  · exact C5_wait_first_pass.1 [("a", ⟨1, false, none⟩), ("b", ⟨2, true, none⟩)]
      2 256 ⟨("a", ⟨1, false, none⟩), by decide, by decide⟩
  · exact C5_wait_first_pass.2 [("a", ⟨1, true, none⟩), ("b", ⟨2, true, none⟩)]
      2 256 "b" ⟨2, true, some 256⟩ (by decide) (by decide)

/-- C6: on the sequential path a task raising `KeyboardInterrupt` aborts the
whole run at once — nothing is recorded for it and no later task runs —
while any other exception is caught, the task name and stacktrace are
recorded, and execution proceeds with the next task. -/
theorem C6_interrupt_handling :
    (∀ (logsDirectory : String) (acc : SeqAcc) (t : SeqTask) (rest : List SeqTask),
        t.outcome = Outcome.interrupt →
        runAnalysisLoop logsDirectory acc (t :: rest) = Except.error acc) ∧
    (∀ (logsDirectory : String) (acc : SeqAcc) (t : SeqTask) (rest : List SeqTask)
        (tr : String),
        t.outcome = Outcome.failure tr →
        runAnalysisLoop logsDirectory acc (t :: rest) =
          runAnalysisLoop logsDirectory
            { tasksWithErrors := acc.tasksWithErrors ++ [t.name]
              lastStacktrace := some tr
              snapshots := acc.snapshots ++ [configPath logsDirectory t.name] }
            rest) ∧
    (∀ (logsDirectory : String) (pre post : List SeqTask) (t : SeqTask),
        (∀ u ∈ pre, u.outcome ≠ Outcome.interrupt) →
        t.outcome = Outcome.interrupt →
        ∃ accF : SeqAcc,
          runAnalysisLoop logsDirectory seqInit (pre ++ t :: post)
            = Except.error accF ∧
          accF.tasksWithErrors
            = (pre.filter fun u => u.outcome.isFailure).map SeqTask.name) := by
  refine ⟨?_, ?_, ?_⟩
  · intro d acc t rest ht
    simp only [runAnalysisLoop, ht]
  · intro d acc t rest tr ht
    simp only [runAnalysisLoop, ht]
  · intro d pre post t hpre ht
    obtain ⟨accF, h1, h2, _⟩ := runAnalysisLoop_interrupt d ht pre post seqInit hpre
    refine ⟨accF, h1, ?_⟩
    simpa [seqInit] using h2

/-- Witness for C6: an interrupting task aborts immediately, a failing task
records and continues, and a run `[f1 fails, k interrupts, s2 never runs]`
aborts after recording only `f1`. -/
theorem C6_witness :
    runAnalysisLoop "logs" seqInit [⟨"k", Outcome.interrupt⟩]
      = Except.error seqInit ∧
    runAnalysisLoop "logs" seqInit [⟨"f", Outcome.failure "tb"⟩]
      = runAnalysisLoop "logs"
          { tasksWithErrors := seqInit.tasksWithErrors ++ ["f"]
            lastStacktrace := some "tb"
            snapshots := seqInit.snapshots ++ [configPath "logs" "f"] } [] ∧
    (∃ accF : SeqAcc,
        runAnalysisLoop "logs" seqInit
            [⟨"f1", Outcome.failure "t1"⟩, ⟨"k", Outcome.interrupt⟩,
             ⟨"s2", Outcome.success⟩]
          = Except.error accF ∧
        accF.tasksWithErrors
          = (([⟨"f1", Outcome.failure "t1"⟩] : List SeqTask).filter
              fun u => u.outcome.isFailure).map SeqTask.name) := by
  refine ⟨?_, ?_, ?_⟩
  · exact C6_interrupt_handling.1 "logs" seqInit ⟨"k", Outcome.interrupt⟩ [] rfl
  · exact C6_interrupt_handling.2.1 "logs" seqInit ⟨"f", Outcome.failure "tb"⟩ [] "tb" rfl
  · exact C6_interrupt_handling.2.2 "logs" [⟨"f1", Outcome.failure "t1"⟩]
      [⟨"s2", Outcome.success⟩] ⟨"k", Outcome.interrupt⟩ (by decide) rfl

/-- C7 as stated is false: a task that raises `KeyboardInterrupt` — which is
an exception raised by the task — gets no config snapshot, because the
re-raise at lines 347-348 skips the write at lines 355-359.  Concrete
input: the one-task batch `[("a", interrupt)]`, after which no snapshot file
has been written. -/
theorem C7_counterexample :
    runAnalysisLoop "logs" seqInit [⟨"a", Outcome.interrupt⟩]
      = Except.error seqInit ∧
    seqInit.snapshots = [] := ⟨rfl, rfl⟩

/-- C7 (amended): on the sequential path, a snapshot of the configuration is
written to `<logsDirectory>/configs/config.<taskName>` after every task that
succeeds or raises a caught (non-`KeyboardInterrupt`) exception: a completed
run writes one snapshot per task in order, and a run aborted by an interrupt
has written exactly the snapshots of the tasks before the interrupting one. -/
theorem C7_config_snapshots :
    (∀ (logsDirectory : String) (tasks : List SeqTask) (r : SeqAcc),
        runAnalysisLoop logsDirectory seqInit tasks = Except.ok r →
        r.snapshots = tasks.map fun t => configPath logsDirectory t.name) ∧
    (∀ (logsDirectory : String) (pre post : List SeqTask) (t : SeqTask),
        (∀ u ∈ pre, u.outcome ≠ Outcome.interrupt) →
        t.outcome = Outcome.interrupt →
        ∃ accF : SeqAcc,
          runAnalysisLoop logsDirectory seqInit (pre ++ t :: post)
            = Except.error accF ∧
          accF.snapshots = pre.map fun u => configPath logsDirectory u.name) := by
  constructor
  · intro d tasks r h
    have := (runAnalysisLoop_ok d tasks seqInit r h).2
    simpa [seqInit] using this
  · intro d pre post t hpre ht
    obtain ⟨accF, h1, _, h3⟩ := runAnalysisLoop_interrupt d ht pre post seqInit hpre
    refine ⟨accF, h1, ?_⟩
    simpa [seqInit] using h3

/-- Witness for C7 (amended): the completed run of `seqDemo2` writes one
snapshot per task, in order; a run interrupted after `f1` has written only
the snapshot of `f1`. -/
theorem C7_witness :
    seqDemo2Final.snapshots
      = seqDemo2.map (fun t => configPath "logs" t.name) ∧
    (∃ accF : SeqAcc,
        runAnalysisLoop "logs" seqInit
            [⟨"f1", Outcome.failure "t1"⟩, ⟨"k", Outcome.interrupt⟩]
          = Except.error accF ∧
        accF.snapshots
          = ([⟨"f1", Outcome.failure "t1"⟩] : List SeqTask).map
              fun u => configPath "logs" u.name) := by
  constructor
  · exact C7_config_snapshots.1 "logs" seqDemo2 seqDemo2Final rfl
  · exact C7_config_snapshots.2 "logs" [⟨"f1", Outcome.failure "t1"⟩] []
      ⟨"k", Outcome.interrupt⟩ (by decide) rfl

/-- C8 as stated is false: the first line written to the log file is not the
whitespace-joined command line itself; line 161 writes it prefixed with the
label `Command: `.  Concrete input: task `sst` with config file `c1` under
`demoCfg` — the trace contains no write of the joined command (with or
without trailing newline), only the labelled line. -/
theorem C8_counterexample :
    LaunchEvent.writeLog
        (String.intercalate " " (buildArgs demoCfg "sst" ["c1"]) ++ "\n") ∉
      launchTaskEvents demoCfg "sst" ["c1"] ∧
    LaunchEvent.writeLog (String.intercalate " " (buildArgs demoCfg "sst" ["c1"])) ∉
      launchTaskEvents demoCfg "sst" ["c1"] ∧
    LaunchEvent.writeLog
        ("Command: " ++ String.intercalate " " (buildArgs demoCfg "sst" ["c1"])
          ++ "\n") ∈
      launchTaskEvents demoCfg "sst" ["c1"] := by
  refine ⟨by decide, by decide, by decide⟩

/-- C8 (amended): for every task name, `launch_tasks` opens the log at
`<logsDirectory>/<taskName>.log` in truncating (create-or-overwrite) mode —
so a re-run replaces the prior log — writes as first line the label
`Command: ` followed by the whitespace-joined command line and a newline,
and flushes it before the child process is spawned: the per-task effect
trace is exactly open, write, flush, start notice, spawn, and no open in
the trace is non-truncating. -/
theorem C8_log_protocol (cfg : LaunchConfig) (taskName : String)
    (configFiles : List String) :
    launchTaskEvents cfg taskName configFiles =
      [LaunchEvent.openLog (logFileName cfg.logsDirectory taskName) true,
       LaunchEvent.writeLog ("Command: " ++
         String.intercalate " " (buildArgs cfg taskName configFiles) ++ "\n"),
       LaunchEvent.flushLog,
       LaunchEvent.printMsg ("Running " ++ taskName),
       LaunchEvent.spawn (buildArgs cfg taskName configFiles)] ∧
    (∀ (path : String) (b : Bool),
        LaunchEvent.openLog path b ∈ launchTaskEvents cfg taskName configFiles →
        b = true) := by
  constructor
  · rfl
  · intro path b hmem
    simp only [launchTaskEvents, List.mem_cons, List.not_mem_nil, or_false] at hmem
    rcases hmem with h | h | h | h | h
    · injection h with _ hb
    · exact absurd h (by simp)
    · exact absurd h (by simp)
    · exact absurd h (by simp)
    · exact absurd h (by simp)

/-- Witness for C8 (amended): the concrete trace for task `sst`, and the
truncation flag of its open event. -/
theorem C8_witness :
    launchTaskEvents demoCfg "sst" ["c1"] =
      [LaunchEvent.openLog "logs/sst.log" true,
       LaunchEvent.writeLog "Command: run_analysis.py --subtask --generate sst c1\n",
       LaunchEvent.flushLog,
       LaunchEvent.printMsg "Running sst",
       LaunchEvent.spawn ["run_analysis.py", "--subtask", "--generate", "sst", "c1"]] ∧
    true = true := by
  constructor
  · rw [(C8_log_protocol demoCfg "sst" ["c1"]).1]
    rfl
  · exact (C8_log_protocol demoCfg "sst" ["c1"]).2 "logs/sst.log" true (by decide)

/-- C9: the child's argument vector is exactly the configured command prefix
split on the space character (the empty list when the prefix string is
empty), then the program's own executable path, then the subtask flag, then
the flag selecting exactly that one task name, then all configuration file
paths in their original order. -/
theorem C9_launch_args (cfg : LaunchConfig) (taskName : String)
    (configFiles : List String) :
    (cfg.commandPrefixStr = "" →
        buildArgs cfg taskName configFiles =
          [cfg.thisFile, "--subtask", "--generate", taskName] ++ configFiles) ∧
    (cfg.commandPrefixStr ≠ "" →
        buildArgs cfg taskName configFiles =
          pySplitSpace cfg.commandPrefixStr ++
            [cfg.thisFile, "--subtask", "--generate", taskName] ++ configFiles) := by
  constructor <;> intro h <;> simp [buildArgs, h]

/-- Witness for C9: concrete argument vectors with an empty and a non-empty
command prefix. -/
theorem C9_witness :
    buildArgs demoCfg "sst" ["c1", "c2"]
      = ["run_analysis.py", "--subtask", "--generate", "sst"] ++ ["c1", "c2"] ∧
    buildArgs demoCfg2 "sst" ["c1", "c2"]
      = ["srun", "-n", "1"] ++ ["run_analysis.py", "--subtask", "--generate", "sst"]
          ++ ["c1", "c2"] := by
  constructor
  · exact (C9_launch_args demoCfg "sst" ["c1", "c2"]).1 rfl
  · have h := (C9_launch_args demoCfg2 "sst" ["c1", "c2"]).2 (by decide)
    rw [h]
    decide

/-- C10: if the blocking wait reports a pid matching no tracked process
(after a first pass that found every process running), `wait_for_task`
returns no pair at all; and when every child is tracked — the reported pid
belongs to the tracked set — that branch is unreachable: the function
always returns a pair whose name is in the tracked set and whose process is
a tracked handle, at most with its returncode updated. -/
theorem C10_wait_unmatched_pid :
    (∀ (processes : List (String × Proc)) (waitPid : Nat) (waitStatus : Int),
        (∀ x ∈ processes, is_running x.2 = true) →
        (∀ x ∈ processes, x.2.pid ≠ waitPid) →
        wait_for_task processes waitPid waitStatus = none) ∧
    (∀ (processes : List (String × Proc)) (waitPid : Nat) (waitStatus : Int),
        (∃ x ∈ processes, x.2.pid = waitPid) →
        ∃ n p, wait_for_task processes waitPid waitStatus = some (n, p) ∧
          ∃ q : Proc, (n, q) ∈ processes ∧
            (p = q ∨ p = { q with returncode := some waitStatus })) := by
  constructor
  · intro processes waitPid waitStatus hall hnopid
    have h1 : processes.find? (fun x => !(is_running x.2)) = none := by
      rw [List.find?_eq_none]
      intro x hx
      simp [hall x hx]
    have h2 : processes.find? (fun x => x.2.pid == waitPid) = none := by
      rw [List.find?_eq_none]
      intro x hx
      simpa using hnopid x hx
    unfold wait_for_task
    rw [h1, h2]
  · intro processes waitPid waitStatus hex
    unfold wait_for_task
    cases h1 : processes.find? (fun x => !(is_running x.2)) with
    | some y =>
        exact ⟨y.1, y.2, rfl, y.2, List.mem_of_find?_eq_some h1, Or.inl rfl⟩
    | none =>
        have hsome : (processes.find? fun x => x.2.pid == waitPid).isSome := by
          rw [List.find?_isSome]
          obtain ⟨x, hx, hpid⟩ := hex
          exact ⟨x, hx, by simp [hpid]⟩
        obtain ⟨y, hy⟩ := Option.isSome_iff_exists.mp hsome
        rw [hy]
        exact ⟨y.1, { y.2 with returncode := some waitStatus }, rfl, y.2,
          List.mem_of_find?_eq_some hy, Or.inr rfl⟩

/-- Witness for C10: with all processes running, an untracked pid yields no
result; a tracked pid yields a tracked pair. -/
theorem C10_witness :
    wait_for_task [("a", ⟨1, true, none⟩), ("b", ⟨2, true, none⟩)] 7 256 = none ∧
    (∃ n p,
        wait_for_task [("a", ⟨1, true, none⟩), ("b", ⟨2, true, none⟩)] 2 256
          = some (n, p) ∧
        ∃ q : Proc,
          (n, q) ∈ ([("a", ⟨1, true, none⟩), ("b", ⟨2, true, none⟩)] :
              List (String × Proc)) ∧
          (p = q ∨ p = { q with returncode := some 256 })) := by
  constructor
  · exact C10_wait_unmatched_pid.1 [("a", ⟨1, true, none⟩), ("b", ⟨2, true, none⟩)]
      7 256 (by decide) (by decide)
  · exact C10_wait_unmatched_pid.2 [("a", ⟨1, true, none⟩), ("b", ⟨2, true, none⟩)]
      2 256 ⟨("b", ⟨2, true, none⟩), by decide, by decide⟩

end RunAnalysis
